import Mathlib

/-!
Shallow embedding of the USPS-tracking poller (`app.py`) and verification of
its specification claims.

The embedding follows the source file section by section:
 - whitespace handling used by `str.strip` and `re.findall(r'\S+', ...)`
   (lines 100-140 of the source);
 - the `USPS` strategy (lines 59-154);
 - the `Fetch` facade (lines 157-229);
 - the `Database` singleton store (lines 232-326);
 - the `App` poll loop (lines 329-379).
External collaborators (the HTTP transport, the HTML parser, the SQLite
engine) are modelled at their contract boundary: the network is a function
from URL to response, the parser a function from body text to an element
list, and a SQLite statement execution a function on the committed rows.
-/

/-! ### Python whitespace primitives

`isSpace` models the character class of Python's `str.strip()` and of the
regex `\s` over ASCII input. -/

def isSpace (c : Char) : Bool :=
  c = ' ' || c = '\t' || c = '\n' || c = '\r' || c = '\x0b' || c = '\x0c'

/-- Leading-whitespace removal, the left half of Python `str.strip()`. -/
def lstrip (l : List Char) : List Char :=
  l.dropWhile isSpace

/-- Trailing-whitespace removal, the right half of Python `str.strip()`. -/
def rstrip : List Char → List Char
  | [] => []
  | c :: cs =>
    match rstrip cs with
    | [] => if isSpace c then [] else [c]
    | d :: r => c :: d :: r

/-- Python `str.strip()` on a character list. -/
def pyStrip (l : List Char) : List Char :=
  rstrip (lstrip l)

/-- Python `str.strip()` on strings (used by every `parse_*` operation). -/
def pyStripStr (s : String) : String :=
  String.mk (pyStrip s.data)

/-- `re.findall(r'\S+', ...)`: the maximal runs of non-whitespace characters,
in order (source line 139). -/
def tokens : List Char → List (List Char)
  | [] => []
  | [c] => if isSpace c then [] else [[c]]
  | c :: d :: cs =>
    if isSpace c then tokens (d :: cs)
    else if isSpace d then [c] :: tokens cs
    else
      match tokens (d :: cs) with
      | [] => [[c]]
      | t :: ts => (c :: t) :: ts

/-- `" ".join(...)` on a list of words (source line 140). -/
def joinSp : List (List Char) → List Char
  | [] => []
  | [t] => t
  | t :: ts => t ++ ' ' :: joinSp ts

/-- The whole normalization pipeline of `USPS.parse_last_seen`
(source lines 138-140): strip, split on whitespace runs, rejoin with
single spaces. -/
def pyNormalize (s : String) : String :=
  String.mk (joinSp (tokens (pyStrip s.data)))

/-! ### Lemmas about the whitespace primitives -/

theorem lstrip_cons_of_space {c : Char} (h : isSpace c = true) (l : List Char) :
    lstrip (c :: l) = lstrip l := by
  simp [lstrip, List.dropWhile, h]

theorem lstrip_cons_of_not_space {c : Char} (h : isSpace c = false) (l : List Char) :
    lstrip (c :: l) = c :: l := by
  simp [lstrip, List.dropWhile, h]

theorem lstrip_idem (l : List Char) : lstrip (lstrip l) = lstrip l := by
  induction l with
  | nil => rfl
  | cons c cs ih =>
    cases h : isSpace c with
    | true => rw [lstrip_cons_of_space h, ih]
    | false => rw [lstrip_cons_of_not_space h, lstrip_cons_of_not_space h]

theorem rstrip_idem (l : List Char) : rstrip (rstrip l) = rstrip l := by
  induction l with
  | nil => rfl
  | cons c cs ih =>
    cases hr : rstrip cs with
    | nil =>
      cases h : isSpace c with
      | true => simp [rstrip, hr, h]
      | false => simp [rstrip, hr, h]
    | cons d r =>
      rw [hr] at ih
      simp only [rstrip, hr]
      simp only [rstrip] at ih ⊢
      cases hr2 : rstrip r with
      | nil => simp [hr2] at ih ⊢; simp [ih]
      | cons e r2 => simp [hr2] at ih ⊢; exact ih

theorem lstrip_rstrip_comm (l : List Char) :
    lstrip (rstrip l) = rstrip (lstrip l) := by
  induction l with
  | nil => rfl
  | cons c cs ih =>
    cases h : isSpace c with
    | true =>
      rw [lstrip_cons_of_space h]
      cases hr : rstrip cs with
      | nil =>
        rw [hr] at ih
        have h2 : rstrip (List.dropWhile isSpace cs) = [] := by
          simpa [lstrip] using ih.symm
        simp [rstrip, hr, h, h2, lstrip]
      | cons d r =>
        rw [hr] at ih
        simp only [rstrip, hr]
        rw [lstrip_cons_of_space h]
        exact ih
    | false =>
      rw [lstrip_cons_of_not_space h]
      cases hr : rstrip cs with
      | nil =>
        simp only [rstrip, hr, h]
        rw [if_neg (by simp [h]), lstrip_cons_of_not_space h]
      | cons d r =>
        simp only [rstrip, hr]
        exact lstrip_cons_of_not_space h (d :: r)

theorem pyStrip_idem (l : List Char) : pyStrip (pyStrip l) = pyStrip l := by
  unfold pyStrip
  rw [lstrip_rstrip_comm, lstrip_idem, rstrip_idem]

theorem pyStripStr_idem (s : String) : pyStripStr (pyStripStr s) = pyStripStr s := by
  unfold pyStripStr
  rw [show (String.mk (pyStrip s.data)).data = pyStrip s.data from rfl, pyStrip_idem]

theorem tokens_space_cons {c : Char} (h : isSpace c = true) (l : List Char) :
    tokens (c :: l) = tokens l := by
  cases l with
  | nil => simp [tokens, h]
  | cons d l' => simp [tokens, h]

theorem tokens_cons_of_not_space {c : Char} (h : isSpace c = false) (l : List Char) :
    ∃ r ts, tokens (c :: l) = (c :: r) :: ts := by
  induction l generalizing c with
  | nil => exact ⟨[], [], by simp [tokens, h]⟩
  | cons d l' ih =>
    cases hd : isSpace d with
    | true => exact ⟨[], tokens l', by simp [tokens, h, hd]⟩
    | false =>
      obtain ⟨r', ts', hr⟩ := ih hd
      exact ⟨d :: r', ts', by simp [tokens, h, hd, hr]⟩

theorem tokens_all_space {l : List Char} (h : ∀ c ∈ l, isSpace c = true) :
    tokens l = [] := by
  induction l with
  | nil => rfl
  | cons c cs ih =>
    have hc : isSpace c = true := h c (by simp)
    rw [tokens_space_cons hc]
    exact ih (fun d hd => h d (by simp [hd]))

theorem tokens_nonempty_of_mem_not_space {l : List Char} {c : Char}
    (hc : c ∈ l) (h : isSpace c = false) : tokens l ≠ [] := by
  induction l with
  | nil => cases hc
  | cons d cs ih =>
    cases hd : isSpace d with
    | false =>
      obtain ⟨r, ts, hr⟩ := tokens_cons_of_not_space hd cs
      simp [hr]
    | true =>
      rw [tokens_space_cons hd]
      rcases List.mem_cons.mp hc with h1 | h1
      · rw [h1] at h; rw [h] at hd; cases hd
      · exact ih h1
theorem tokens_good_aux : ∀ (n : Nat) (l : List Char), l.length ≤ n →
    ∀ x ∈ tokens l, x ≠ [] ∧ ∀ c ∈ x, isSpace c = false := by
  intro n
  induction n with
  | zero =>
    intro l hl
    have h0 : l = [] := List.eq_nil_of_length_eq_zero (Nat.le_zero.mp hl)
    subst h0
    intro x hx; cases hx
  | succ n ih =>
    intro l hl
    cases l with
    | nil => intro x hx; cases hx
    | cons c cs =>
      cases cs with
      | nil =>
        intro x hx
        by_cases hc : isSpace c = true
        · simp [tokens, hc] at hx
        · rw [Bool.not_eq_true] at hc
          simp [tokens, hc] at hx
          subst hx
          refine ⟨by simp, ?_⟩
          intro e he; simp at he; subst he; exact hc
      | cons d cs' =>
        intro x hx
        have hdl : (d :: cs').length ≤ n := by simp at hl ⊢; omega
        have hcl : cs'.length ≤ n := by simp at hl; omega
        cases hc : isSpace c with
        | true =>
          rw [tokens_space_cons hc] at hx
          exact ih (d :: cs') hdl x hx
        | false =>
          cases hd : isSpace d with
          | true =>
            simp only [tokens, hc, hd] at hx
            simp at hx
            rcases hx with h1 | h1
            · subst h1
              refine ⟨by simp, ?_⟩
              intro e he; simp at he; subst he; exact hc
            · exact ih cs' hcl x h1
          | false =>
            obtain ⟨r, ts, hr⟩ := tokens_cons_of_not_space hd cs'
            have hrec := ih (d :: cs') hdl
            rw [hr] at hrec
            simp only [tokens, hc, hd, hr] at hx
            simp at hx
            rcases hx with h1 | h1
            · subst h1
              refine ⟨by simp, ?_⟩
              intro e he
              rcases List.mem_cons.mp he with h2 | h2
              · subst h2; exact hc
              · exact (hrec (d :: r) (by simp)).2 e h2
            · exact hrec x (List.mem_cons_of_mem _ h1)

theorem tokens_good {l : List Char} :
    ∀ x ∈ tokens l, x ≠ [] ∧ ∀ c ∈ x, isSpace c = false :=
  tokens_good_aux l.length l (Nat.le_refl _)

theorem tokens_token_append {t : List Char} (ht : t ≠ [])
    (hsp : ∀ c ∈ t, isSpace c = false) (l : List Char)
    (hl : l = [] ∨ ∃ d l', l = d :: l' ∧ isSpace d = true) :
    tokens (t ++ l) = t :: tokens l := by
  induction t with
  | nil => cases ht rfl
  | cons c t' ih =>
    have hc : isSpace c = false := hsp c (by simp)
    cases t' with
    | nil =>
      rcases hl with h | ⟨d, l', hdl, hd⟩
      · subst h; simp [tokens, hc]
      · subst hdl
        simp [tokens, hc, hd, tokens_space_cons hd]
    | cons e t'' =>
      have he : isSpace e = false := hsp e (by simp)
      have ih' := ih (by simp) (fun x hx => hsp x (List.mem_cons_of_mem _ hx))
      simp only [List.cons_append] at ih' ⊢
      obtain ⟨r, ts, hr⟩ := tokens_cons_of_not_space he (t'' ++ l)
      rw [hr] at ih'
      have h1 : e :: r = e :: t'' := (List.cons.injEq _ _ _ _).mp ih' |>.1
      have h2 : ts = tokens l := (List.cons.injEq _ _ _ _).mp ih' |>.2
      have hr' : r = t'' := (List.cons.injEq _ _ _ _).mp h1 |>.2
      subst hr'; subst h2
      simp [tokens, hc, he, hr]

theorem tokens_joinSp {ts : List (List Char)}
    (h : ∀ x ∈ ts, x ≠ [] ∧ ∀ c ∈ x, isSpace c = false) :
    tokens (joinSp ts) = ts := by
  induction ts with
  | nil => rfl
  | cons t ts' ih =>
    cases ts' with
    | nil =>
      have hA := tokens_token_append (h t (by simp)).1 (h t (by simp)).2 [] (Or.inl rfl)
      simpa [joinSp] using hA
    | cons t2 ts'' =>
      have hA := tokens_token_append (h t (by simp)).1 (h t (by simp)).2
        (' ' :: joinSp (t2 :: ts'')) (Or.inr ⟨' ', joinSp (t2 :: ts''), rfl, by decide⟩)
      rw [show joinSp (t :: t2 :: ts'') = t ++ ' ' :: joinSp (t2 :: ts'') from rfl, hA,
          tokens_space_cons (by decide), ih (fun x hx => h x (List.mem_cons_of_mem _ hx))]

theorem rstrip_decomp (l : List Char) :
    ∃ sfx, l = rstrip l ++ sfx ∧ ∀ c ∈ sfx, isSpace c = true := by
  induction l with
  | nil => exact ⟨[], rfl, by simp⟩
  | cons c cs ih =>
    obtain ⟨sfx, hcs, hsp⟩ := ih
    cases hr : rstrip cs with
    | nil =>
      rw [hr] at hcs
      simp at hcs
      cases hc : isSpace c with
      | true =>
        refine ⟨c :: sfx, ?_, ?_⟩
        · simp [rstrip, hr, hc]; exact hcs
        · intro e he
          rcases List.mem_cons.mp he with h1 | h1
          · subst h1; exact hc
          · exact hsp e h1
      | false =>
        refine ⟨sfx, ?_, hsp⟩
        simp [rstrip, hr, hc]; exact hcs
    | cons d r =>
      rw [hr] at hcs
      exact ⟨sfx, by simp [rstrip, hr]; exact hcs, hsp⟩

theorem tokens_cons_cons_not_space {c e : Char} (hc : isSpace c = false)
    (he : isSpace e = false) (l : List Char) {r : List Char} {ts : List (List Char)}
    (h : tokens (e :: l) = (e :: r) :: ts) :
    tokens (c :: e :: l) = (c :: e :: r) :: ts := by
  simp [tokens, hc, he, h]

theorem tokens_append_all_space {s : List Char} (hs : ∀ c ∈ s, isSpace c = true) :
    ∀ m : List Char, tokens (m ++ s) = tokens m := by
  intro m
  induction m with
  | nil => simpa using tokens_all_space hs
  | cons c m' ih =>
    cases hc : isSpace c with
    | true =>
      rw [List.cons_append, tokens_space_cons hc, ih, tokens_space_cons hc]
    | false =>
      cases m' with
      | nil =>
        cases s with
        | nil => simp
        | cons d s' =>
          have hd : isSpace d = true := hs d (by simp)
          have hs' : tokens s' = [] := tokens_all_space (fun e he => hs e (by simp [he]))
          simp [tokens, hc, hd, hs']
      | cons e m'' =>
        cases he : isSpace e with
        | true =>
          have ihm : tokens (m'' ++ s) = tokens m'' := by
            have h0 := ih
            rw [List.cons_append, tokens_space_cons he, tokens_space_cons he] at h0
            exact h0
          rw [List.cons_append, List.cons_append]
          simp [tokens, hc, he, ihm]
        | false =>
          have ih' := ih
          rw [List.cons_append] at ih'
          obtain ⟨r1, ts1, hr1⟩ := tokens_cons_of_not_space he (m'' ++ s)
          obtain ⟨r2, ts2, hr2⟩ := tokens_cons_of_not_space he m''
          rw [List.cons_append, List.cons_append,
            tokens_cons_cons_not_space hc he _ hr1,
            tokens_cons_cons_not_space hc he _ hr2]
          rw [hr1, hr2] at ih'
          have h1 : e :: r1 = e :: r2 := (List.cons.injEq _ _ _ _).mp ih' |>.1
          have h2 : ts1 = ts2 := (List.cons.injEq _ _ _ _).mp ih' |>.2
          have h3 : r1 = r2 := (List.cons.injEq _ _ _ _).mp h1 |>.2
          rw [h2, h3]

theorem tokens_lstrip (l : List Char) : tokens (lstrip l) = tokens l := by
  induction l with
  | nil => rfl
  | cons c cs ih =>
    cases hc : isSpace c with
    | true => rw [lstrip_cons_of_space hc, ih, tokens_space_cons hc]
    | false => rw [lstrip_cons_of_not_space hc]

theorem tokens_rstrip (l : List Char) : tokens (rstrip l) = tokens l := by
  obtain ⟨sfx, hl, hsp⟩ := rstrip_decomp l
  conv_rhs => rw [hl]
  rw [tokens_append_all_space hsp]

theorem tokens_pyStrip (l : List Char) : tokens (pyStrip l) = tokens l := by
  unfold pyStrip
  rw [tokens_rstrip, tokens_lstrip]

theorem pyNormalize_idem (s : String) : pyNormalize (pyNormalize s) = pyNormalize s := by
  unfold pyNormalize
  rw [show (String.mk (joinSp (tokens (pyStrip s.data)))).data
      = joinSp (tokens (pyStrip s.data)) from rfl,
    tokens_pyStrip, tokens_joinSp tokens_good]

theorem rstrip_no_space {t : List Char} (h : ∀ c ∈ t, isSpace c = false) :
    rstrip t = t := by
  induction t with
  | nil => rfl
  | cons c cs ih =>
    have hih := ih (fun d hd => h d (List.mem_cons_of_mem _ hd))
    have hc : isSpace c = false := h c (by simp)
    cases hcs : cs with
    | nil => simp [rstrip, hc]
    | cons d r =>
      rw [hcs] at hih
      rw [
        show rstrip (c :: d :: r) = match rstrip (d :: r) with
          | [] => if isSpace c then [] else [c]
          | e :: r2 => c :: e :: r2 from rfl,
        hih]

theorem rstrip_append_of_ne_nil {l : List Char} (h : rstrip l ≠ []) (t : List Char) :
    rstrip (t ++ l) = t ++ rstrip l := by
  induction t with
  | nil => rfl
  | cons c t' ih =>
    have hne : t' ++ rstrip l ≠ [] := by
      intro hx
      exact h (List.append_eq_nil.mp hx).2
    cases hx : t' ++ rstrip l with
    | nil => exact absurd hx hne
    | cons d r =>
      rw [List.cons_append, List.cons_append, hx,
        show rstrip (c :: (t' ++ l)) = match rstrip (t' ++ l) with
          | [] => if isSpace c then [] else [c]
          | e :: r2 => c :: e :: r2 from rfl,
        ih, hx]

theorem joinSp_cons_ne_nil {t : List Char} (h : t ≠ []) (ts : List (List Char)) :
    joinSp (t :: ts) ≠ [] := by
  cases ts with
  | nil => simpa [joinSp] using h
  | cons t2 ts' => simp [joinSp]

theorem rstrip_joinSp_good {ts : List (List Char)}
    (h : ∀ x ∈ ts, x ≠ [] ∧ ∀ c ∈ x, isSpace c = false) :
    rstrip (joinSp ts) = joinSp ts := by
  induction ts with
  | nil => rfl
  | cons t ts' ih =>
    cases ts' with
    | nil => exact rstrip_no_space (h t (by simp)).2
    | cons t2 ts'' =>
      have hih := ih (fun x hx => h x (List.mem_cons_of_mem _ hx))
      have hne : joinSp (t2 :: ts'') ≠ [] := joinSp_cons_ne_nil (h t2 (by simp)).1 ts''
      have h1 : rstrip (' ' :: joinSp (t2 :: ts'')) = ' ' :: joinSp (t2 :: ts'') := by
        cases hx : joinSp (t2 :: ts'') with
        | nil => exact absurd hx hne
        | cons d r =>
          rw [hx] at hih
          rw [
            show rstrip (' ' :: d :: r) = match rstrip (d :: r) with
              | [] => if isSpace ' ' then [] else [' ']
              | e :: r2 => ' ' :: e :: r2 from rfl,
            hih]
      have h2 : rstrip (' ' :: joinSp (t2 :: ts'')) ≠ [] := by rw [h1]; simp
      rw [show joinSp (t :: t2 :: ts'') = t ++ ' ' :: joinSp (t2 :: ts'') from rfl,
        rstrip_append_of_ne_nil h2 t, h1]

theorem pyStrip_joinSp_good {ts : List (List Char)}
    (h : ∀ x ∈ ts, x ≠ [] ∧ ∀ c ∈ x, isSpace c = false) :
    pyStrip (joinSp ts) = joinSp ts := by
  cases ts with
  | nil => rfl
  | cons t ts' =>
    have ht := h t (by simp)
    obtain ⟨c, tc, htc⟩ := List.exists_cons_of_ne_nil ht.1
    have hc : isSpace c = false := ht.2 c (by simp [htc])
    have hl : lstrip (joinSp (t :: ts')) = joinSp (t :: ts') := by
      cases ts' with
      | nil =>
        rw [show joinSp [t] = t from rfl, htc]
        exact lstrip_cons_of_not_space hc tc
      | cons t2 ts'' =>
        rw [show joinSp (t :: t2 :: ts'') = t ++ ' ' :: joinSp (t2 :: ts'') from rfl, htc,
          List.cons_append]
        exact lstrip_cons_of_not_space hc _
    unfold pyStrip
    rw [hl]
    exact rstrip_joinSp_good h

theorem pyNormalize_trimmed (s : String) : pyStripStr (pyNormalize s) = pyNormalize s := by
  unfold pyNormalize pyStripStr
  rw [show (String.mk (joinSp (tokens (pyStrip s.data)))).data
      = joinSp (tokens (pyStrip s.data)) from rfl,
    pyStrip_joinSp_good tokens_good]

theorem tokens_eq_nil_all_space {l : List Char} (h : tokens l = []) :
    ∀ c ∈ l, isSpace c = true := by
  induction l with
  | nil => intro c hc; cases hc
  | cons d cs ih =>
    intro c hc
    cases hd : isSpace d with
    | false =>
      obtain ⟨r, ts, hr⟩ := tokens_cons_of_not_space hd cs
      rw [hr] at h
      cases h
    | true =>
      rw [tokens_space_cons hd] at h
      rcases List.mem_cons.mp hc with h1 | h1
      · subst h1; exact hd
      · exact ih h c h1

theorem lstrip_all_space {l : List Char} (h : ∀ c ∈ l, isSpace c = true) :
    lstrip l = [] := by
  induction l with
  | nil => rfl
  | cons c cs ih =>
    rw [lstrip_cons_of_space (h c (by simp))]
    exact ih (fun d hd => h d (by simp [hd]))

theorem tokens_ne_nil_of_pyStrip_ne_nil {l : List Char} (h : pyStrip l ≠ []) :
    tokens l ≠ [] := by
  intro hx
  apply h
  have hall := tokens_eq_nil_all_space hx
  unfold pyStrip
  rw [lstrip_all_space hall]
  rfl

theorem pyNormalize_ne_empty {s : String} (h : pyStripStr s ≠ "") :
    pyNormalize s ≠ "" := by
  have h1 : pyStrip s.data ≠ [] := by
    intro hx
    apply h
    unfold pyStripStr
    rw [hx]
  have h2 : tokens (pyStrip s.data) ≠ [] := by
    rw [tokens_pyStrip]
    exact tokens_ne_nil_of_pyStrip_ne_nil h1
  intro hcontra
  cases hx : tokens (pyStrip s.data) with
  | nil => exact absurd hx h2
  | cons t ts =>
    have hgood : t ≠ [] := (tokens_good t (by rw [hx]; simp)).1
    apply joinSp_cons_ne_nil hgood ts
    have hd := congrArg String.data hcontra
    unfold pyNormalize at hd
    rw [show (String.mk (joinSp (tokens (pyStrip s.data)))).data
        = joinSp (tokens (pyStrip s.data)) from rfl] at hd
    rw [hx] at hd
    simpa using hd

/-! ### The carrier page model

`BeautifulSoup` is an external collaborator: the parse tree is modelled as a
list of elements, and `soup.find(tag, attrs)` as the first element whose tag
and class match (`None` when absent). -/

structure SoupEl where
  tag : String
  cls : String
  text : String

def soupFind (soup : List SoupEl) (tag cls : String) : Option String :=
  (soup.find? (fun e => e.tag = tag && e.cls = cls)).map SoupEl.text

/-- The HTTP response contract the strategy needs from `requests`
(status and body). -/
structure HttpResponse where
  status_code : Nat
  text : String

/-- `requests.Response.ok`: `raise_for_status` raises exactly for
4xx/5xx status codes, so `ok` is true for every other status. -/
def responseOk (status : Nat) : Bool :=
  !(decide (400 ≤ status) && decide (status < 600))

/-! ### The USPS strategy (source lines 59-154) -/

/-- The state a constructed `USPS` object retains: the configured tracking
number, the response of the construction-time GET, and the parse tree built
from the response body (source lines 62-70). -/
structure USPS where
  tracking_number : String
  response : HttpResponse
  soup : List SoupEl

def BASE_URL : String :=
  "https://tools.usps.com/go/TrackConfirmAction.action?tLabels="

/-- `USPS.get` (source lines 87-98): issue the GET for
`BASE_URL + tracking_number` and raise `Exception("Error: " + code)` when
the response is not ok. The ambient network is a function from URL to
response. -/
def USPS.get (net : String → HttpResponse) (tracking_number : String) :
    Except String HttpResponse :=
  let response := net (BASE_URL ++ tracking_number)
  if responseOk response.status_code then .ok response
  else .error ("Error: " ++ toString response.status_code)

/-- `USPS.__init__` (source lines 62-70): read the tracking number from
configuration, GET the tracking page, parse the body and retain the tree.
`parseHtml` stands for the external `BeautifulSoup(_, "html.parser")`. -/
def uspsInit (net : String → HttpResponse) (parseHtml : String → List SoupEl)
    (tracking_number : String) : Except String USPS :=
  match USPS.get net tracking_number with
  | .error e => .error e
  | .ok r =>
    .ok { tracking_number := tracking_number, response := r, soup := parseHtml r.text }

/-- `USPS.parse_content` (source lines 100-106): text of the first
`p.banner-content` element, stripped; attribute error when absent. -/
def USPS.parse_content (u : USPS) : Except String String :=
  match soupFind u.soup "p" "banner-content" with
  | none => .error "AttributeError: NoneType object has no attribute text"
  | some t => .ok (pyStripStr t)

/-- `USPS.parse_status` (source lines 108-114). -/
def USPS.parse_status (u : USPS) : Except String String :=
  match soupFind u.soup "p" "tb-status" with
  | none => .error "AttributeError: NoneType object has no attribute text"
  | some t => .ok (pyStripStr t)

/-- `USPS.parse_detail` (source lines 116-122). -/
def USPS.parse_detail (u : USPS) : Except String String :=
  match soupFind u.soup "p" "tb-status-detail" with
  | none => .error "AttributeError: NoneType object has no attribute text"
  | some t => .ok (pyStripStr t)

/-- `USPS.parse_location` (source lines 124-130). -/
def USPS.parse_location (u : USPS) : Except String String :=
  match soupFind u.soup "p" "tb-location" with
  | none => .error "AttributeError: NoneType object has no attribute text"
  | some t => .ok (pyStripStr t)

/-- `USPS.parse_last_seen` (source lines 132-140): text of the first
`p.tb-date` element, stripped, split on whitespace runs and rejoined with
single spaces. -/
def USPS.parse_last_seen (u : USPS) : Except String String :=
  match soupFind u.soup "p" "tb-date" with
  | none => .error "AttributeError: NoneType object has no attribute text"
  | some t => .ok (pyNormalize t)

/-- `USPS.data` (source lines 142-154): the six-field snapshot, values
computed in the dict-literal order of the source. -/
def USPS.data (u : USPS) : Except String (List (String × String)) := do
  let c ← u.parse_content
  let s ← u.parse_status
  let d ← u.parse_detail
  let l ← u.parse_location
  let ls ← u.parse_last_seen
  return [("tracking_number", u.tracking_number), ("content", c), ("status", s),
          ("detail", d), ("location", l), ("last_seen", ls)]

/-! ### The strategy interface and the Fetch facade (source lines 14-56,
157-229)

`FetchStrategy` is the abstract seven-operation contract; a value of this
structure is one concrete strategy instance's behaviour. -/

structure FetchStrategy where
  tracking_number : String
  get : String → Except String HttpResponse
  parse_content : Except String String
  parse_status : Except String String
  parse_detail : Except String String
  parse_location : Except String String
  parse_last_seen : Except String String
  data : Except String (List (String × String))

/-- The `FetchStrategy` view of a constructed `USPS` object. -/
def USPS.strategy (net : String → HttpResponse) (u : USPS) : FetchStrategy :=
  { tracking_number := u.tracking_number
  , get := USPS.get net
  , parse_content := u.parse_content
  , parse_status := u.parse_status
  , parse_detail := u.parse_detail
  , parse_location := u.parse_location
  , parse_last_seen := u.parse_last_seen
  , data := u.data }

/-- The `Fetch` context object (source lines 157-165): holds one strategy. -/
structure Fetch where
  strategy : FetchStrategy

/-- Source lines 174-179. -/
def Fetch.tracking_number (f : Fetch) : String :=
  f.strategy.tracking_number

/-- Source lines 181-187. -/
def Fetch.get (f : Fetch) (tracking_number : String) : Except String HttpResponse :=
  f.strategy.get tracking_number

/-- Source lines 189-194. -/
def Fetch.parse_content (f : Fetch) : Except String String :=
  f.strategy.parse_content

/-- Source lines 196-201. -/
def Fetch.parse_status (f : Fetch) : Except String String :=
  f.strategy.parse_status

/-- Source lines 203-208. -/
def Fetch.parse_detail (f : Fetch) : Except String String :=
  f.strategy.parse_detail

/-- Source lines 210-215. -/
def Fetch.parse_location (f : Fetch) : Except String String :=
  f.strategy.parse_location

/-- Source lines 217-222. -/
def Fetch.parse_last_seen (f : Fetch) : Except String String :=
  f.strategy.parse_last_seen

/-- Source lines 224-229. -/
def Fetch.data (f : Fetch) : Except String (List (String × String)) :=
  f.strategy.data

/-! ### The Database singleton store (source lines 232-326)

One row of the store is a parameterized record (field name, value). The
table content reachable through a connection is a list of rows. -/

abbrev DbRow := List (String × String)

/-- `str.endswith` as used by the `.db` extension check (source line 253). -/
def pyEndsWith (s sfx : String) : Bool :=
  List.isSuffixOf sfx.data s.data

/-- The state of the one `Database` object: its Python object identity, the
fields assigned by the most recent `__init__` run, and the table content
reachable through its current connection. A fresh connection to a fresh
file starts with no rows. -/
structure DbInstance where
  id : Nat
  name : String
  connId : Nat
  connOpen : Bool
  schemaSql : String
  rows : List DbRow

/-- The class-level singleton state of `Database` (source line 234) plus a
counter of opened connections, giving each `sqlite3.connect` call a fresh
identity. -/
structure DbClass where
  instId : Option Nat
  nextConn : Nat

/-- The class state at process start: `Database.instance = None`. -/
def dbClassInit : DbClass :=
  { instId := none, nextConn := 0 }

/-- One `Database(name, sql)` construction: `__new__` (source lines 237-245)
returns the already-stored object when one exists, otherwise allocates and
stores a new one; then `__init__` (source lines 247-259) always runs on the
returned object: it validates the `.db` extension (ValueError otherwise),
assigns the name, opens a fresh connection to `name`, executes `sql` and
commits. -/
def databaseConstruct (cls : DbClass) (name sql : String) :
    DbClass × Except String DbInstance :=
  let oid := match cls.instId with
    | some i => i
    | none => 0
  let cls1 : DbClass := { cls with instId := some oid }
  if pyEndsWith name ".db" then
    ({ cls1 with nextConn := cls1.nextConn + 1 },
     .ok { id := oid, name := name, connId := cls1.nextConn, connOpen := true,
           schemaSql := sql, rows := [] })
  else
    (cls1, .error (name ++ " must end with " ++ ".db"))

/-- `Database.__exit__` (source lines 275-283): closes the connection. -/
def Database.exitCtx (db : DbInstance) : DbInstance :=
  { db with connOpen := false }

/-- `Database.insert` (source lines 285-294): `with self.conn:` executes the
statement inside a transaction — on an exception from execution the
transaction is rolled back and the committed state is unchanged, on success
the context-manager exit commits; the trailing `self.conn.commit()` is then
a no-op. Executing a statement over a closed connection raises
`ProgrammingError`. The SQLite engine is external, so the statement's
semantics is a function from the committed rows to new rows or an error. -/
def Database.insert (db : DbInstance)
    (exec : List DbRow → Except String (List DbRow)) :
    Except String Unit × DbInstance :=
  if db.connOpen then
    match exec db.rows with
    | .error e => (.error e, db)
    | .ok rs => (.ok (), { db with rows := rs })
  else
    (.error "Cannot operate on a closed database.", db)

/-- `Database.update` (source lines 306-315): textually the same
transactional wrapper as `insert`. -/
def Database.update (db : DbInstance)
    (exec : List DbRow → Except String (List DbRow)) :
    Except String Unit × DbInstance :=
  if db.connOpen then
    match exec db.rows with
    | .error e => (.error e, db)
    | .ok rs => (.ok (), { db with rows := rs })
  else
    (.error "Cannot operate on a closed database.", db)

/-- `Database.delete` (source lines 317-326): textually the same
transactional wrapper as `insert`. -/
def Database.delete (db : DbInstance)
    (exec : List DbRow → Except String (List DbRow)) :
    Except String Unit × DbInstance :=
  if db.connOpen then
    match exec db.rows with
    | .error e => (.error e, db)
    | .ok rs => (.ok (), { db with rows := rs })
  else
    (.error "Cannot operate on a closed database.", db)

/-! ### The App poll loop (source lines 329-379) -/

/-- `datetime.datetime.utcnow()` truncated to the fields the strftime format
uses. -/
structure UtcTime where
  year : Nat
  month : Nat
  day : Nat
  hour : Nat
  minute : Nat

def pad2 (n : Nat) : String :=
  if n < 10 then "0" ++ toString n else toString n

/-- `strftime("%Y-%m-%d %H:%M")` (source line 359). -/
def strftimeYmdHM (t : UtcTime) : String :=
  toString t.year ++ "-" ++ pad2 t.month ++ "-" ++ pad2 t.day ++ " "
    ++ pad2 t.hour ++ ":" ++ pad2 t.minute

/-- Python `dict.update` with a one-key dict (source line 359): replace the
value when the key is present, append the pair otherwise. -/
def dictUpdate (d : List (String × String)) (k v : String) :
    List (String × String) :=
  if (d.map Prod.fst).contains k then
    d.map (fun p => if p.1 = k then (p.1, v) else p)
  else
    d ++ [(k, v)]

/-- `re.match(r"^us", s, re.IGNORECASE)` (source line 339): a
case-insensitive match of the prefix `us`. -/
def matchUs (s : String) : Bool :=
  match s.data with
  | c :: d :: _ => c.toLower = 'u' && d.toLower = 's'
  | _ => false

/-- The state of a constructed `App` object (source lines 332-344). The
strategy is the single `USPS()` built in `__init__`; `strategyId` is that
object's Python identity (the first and only strategy allocation of the
process). -/
structure App where
  sleep : Nat
  seperator : String
  strategy : FetchStrategy
  strategyId : Nat
  database : DbInstance

/-- `App.__init__` (source lines 332-344): validate the delivery-service
prefix (ValueError otherwise), construct the one `USPS` strategy, then run
`with Database(DB_NAME, CREATE_TABLE) as db: self.database = db` — the
`with` block ends immediately after the assignment, so `Database.__exit__`
closes the connection before `__init__` returns. -/
def appInit (delivery_service : String) (net : String → HttpResponse)
    (parseHtml : String → List SoupEl) (tracking_number dbName createSql : String) :
    Except String App :=
  if matchUs delivery_service then
    match uspsInit net parseHtml tracking_number with
    | .error e => .error e
    | .ok u =>
      match databaseConstruct dbClassInit dbName createSql with
      | (_, .error e) => .error e
      | (_, .ok db) =>
        .ok { sleep := 15 * 60, seperator := "—",
              strategy := USPS.strategy net u, strategyId := 0,
              database := Database.exitCtx db }
  else
    .error "Delivery Service is not supported."

/-- `App.save_data` (source lines 353-360): stamp the snapshot with the
save-time UTC timestamp, then insert it with the parameterized
`INSERT_STATUS` statement, whose SQLite semantics is appending the bound
record as one row. -/
def App.save_data (app : App) (data : List (String × String)) (now : UtcTime) :
    Except String Unit × App :=
  let stamped := dictUpdate data "date" (strftimeYmdHM now)
  match Database.insert app.database (fun rows => .ok (rows ++ [stamped])) with
  | (r, db) => (r, { app with database := db })

/-- One iteration of `App.run`'s loop (source lines 367-379): build a fresh
`Fetch` facade over the stored strategy, take the snapshot, print the
report (no model state), save, print the separator and message, sleep. An
exception from the snapshot or the insert propagates and leaves the app
state unchanged. -/
def App.runCycle (app : App) (now : UtcTime) : Except String Unit × App :=
  let fetch : Fetch := { strategy := app.strategy }
  match Fetch.data fetch with
  | .error e => (.error e, app)
  | .ok d => App.save_data app d now

/-- The object identities involved in one loop iteration: the `Fetch`
facade allocated by `Fetch(self.delivery_service)` and the strategy
instance it wraps (source line 368). -/
structure FetchInst where
  id : Nat
  strategyId : Nat

/-- The allocation made by one cycle: a fresh facade object (the next free
object identity) wrapping the stored strategy object. -/
def App.cycleFetchInst (app : App) (alloc : Nat) : FetchInst :=
  { id := alloc, strategyId := app.strategyId }

/-- The facade instance allocated in the n-th cycle of `App.run`, starting
from allocation counter `alloc`: each iteration allocates exactly one new
`Fetch` object and no new strategy object. -/
def App.fetchInstOfCycle (app : App) (alloc : Nat) : Nat → FetchInst
  | 0 => App.cycleFetchInst app alloc
  | n + 1 => App.fetchInstOfCycle app (alloc + 1) n

/-! ### Concrete inputs used to evaluate the model -/

def demoSoup : List SoupEl :=
  [ { tag := "p", cls := "banner-content",
      text := " Your item was delivered in CHICAGO, IL 60601. " },
    { tag := "p", cls := "tb-status", text := "Delivered" },
    { tag := "p", cls := "tb-status-detail", text := "Left with individual" },
    { tag := "p", cls := "tb-location", text := "CHICAGO, IL 60601 " },
    { tag := "p", cls := "tb-date", text := "Nov 3, 2023\n  10:15 AM" } ]

def demoNet : String → HttpResponse :=
  fun _ => { status_code := 200, text := "page" }

def demo404Net : String → HttpResponse :=
  fun _ => { status_code := 404, text := "not found" }

def demo304Net : String → HttpResponse :=
  fun _ => { status_code := 304, text := "not modified" }

def demoParse : String → List SoupEl :=
  fun _ => demoSoup

def demoTime : UtcTime :=
  { year := 2023, month := 11, day := 3, hour := 10, minute := 20 }

def demoUsps : USPS :=
  { tracking_number := "9400X",
    response := { status_code := 200, text := "page" },
    soup := demoSoup }

/-- An app whose retained strategy was built over markup with none of the
five marker elements, so every cycle's snapshot raises. -/
def demoFailApp : App :=
  { sleep := 15 * 60, seperator := "—",
    strategy := USPS.strategy demoNet
      { tracking_number := "9400X",
        response := { status_code := 200, text := "page" }, soup := [] },
    strategyId := 0,
    database := { id := 0, name := "status.db", connId := 0, connOpen := false,
                  schemaSql := "CREATE TABLE IF NOT EXISTS status", rows := [] } }

def demoOpenDb : DbInstance :=
  { id := 0, name := "status.db", connId := 0, connOpen := true,
    schemaSql := "CREATE TABLE IF NOT EXISTS status", rows := [] }

def demoInsertExec : List DbRow → Except String (List DbRow) :=
  fun rows => .ok (rows ++ [[("status", "Delivered")]])

def demoFailExec : List DbRow → Except String (List DbRow) :=
  fun _ => .error "constraint violation"

def demoSnapshot : List (String × String) :=
  [("tracking_number", "9400X"),
   ("content", "Your item was delivered in CHICAGO, IL 60601."),
   ("status", "Delivered"), ("detail", "Left with individual"),
   ("location", "CHICAGO, IL 60601"), ("last_seen", "Nov 3, 2023 10:15 AM")]

/-! ### Claim C1 -/

/-- Claim C1 is refuted by the code: the `with` statement in `App.__init__`
exits right after assigning `self.database`, invoking `Database.__exit__`
and closing the connection. For a successfully constructed App the
connection is already closed before the loop starts, so the first cycle's
insert raises `ProgrammingError` instead of executing over an open
connection, and nothing is ever persisted. -/
theorem connection_closed_before_first_cycle_insert :
    ∃ app, appInit "usps" demoNet demoParse "9400X" "status.db"
        "CREATE TABLE IF NOT EXISTS status" = Except.ok app ∧
      app.database.connOpen = false ∧
      (App.runCycle app demoTime).1 = Except.error "Cannot operate on a closed database." ∧
      (App.runCycle app demoTime).2.database.rows = [] := by
  refine ⟨_, rfl, rfl, rfl, rfl⟩

/-! ### Claim C2 -/

/-- Claim C2 is refuted by the code: every iteration of `App.run` allocates
a fresh `Fetch` facade (the facade identities of consecutive cycles
differ), but each facade wraps the one strategy object stored by
`App.__init__` — the strategy whose snapshot cycle n takes is the very same
instance cycle n-1 used, so no cycle performs a fresh network fetch. -/
theorem loop_reuses_single_strategy_instance (app : App) (alloc : Nat) (n : Nat) :
    (App.fetchInstOfCycle app alloc (n + 1)).strategyId
      = (App.fetchInstOfCycle app alloc n).strategyId ∧
    (App.fetchInstOfCycle app alloc (n + 1)).id
      ≠ (App.fetchInstOfCycle app alloc n).id := by
  have hgen : ∀ (m : Nat) (a : Nat), App.fetchInstOfCycle app a m
      = { id := a + m, strategyId := app.strategyId } := by
    intro m
    induction m with
    | zero => intro a; rfl
    | succ k ih =>
      intro a
      rw [show App.fetchInstOfCycle app a (k + 1)
          = App.fetchInstOfCycle app (a + 1) k from rfl, ih]
      congr 1
      omega
  rw [hgen (n + 1) alloc, hgen n alloc]
  refine ⟨rfl, ?_⟩
  simp

/-! ### Claim C3 -/

/-- Claim C3 is refuted by the code at a concrete input: the second
construction does return the same object (`id` preserved by `__new__`), but
Python then re-runs `__init__` on it with the second call's arguments, so
the store's location, schema statement and connection after the second
construction differ from those established by the first. -/
theorem second_construction_overwrites_state :
    ∃ cls1 i1 cls2 i2,
      databaseConstruct dbClassInit "a.db" "create table one" = (cls1, Except.ok i1) ∧
      databaseConstruct cls1 "b.db" "create table two" = (cls2, Except.ok i2) ∧
      i2.id = i1.id ∧
      i1.name = "a.db" ∧ i2.name = "b.db" ∧ i2.name ≠ i1.name ∧
      i2.schemaSql ≠ i1.schemaSql ∧ i2.connId ≠ i1.connId := by
  refine ⟨_, _, _, _, rfl, rfl, rfl, rfl, rfl, by decide, by decide, by decide⟩

/-- Claim C3 (amended): constructing the Record Store a second time returns
the same instance object, but the second call's arguments are not ignored —
`__init__` re-runs, so the store's location, schema statement and (fresh)
connection after the second construction are those established by the
second call. -/
theorem second_construction_same_object_new_args (n1 s1 n2 s2 : String)
    (h1 : pyEndsWith n1 ".db" = true) (h2 : pyEndsWith n2 ".db" = true) :
    ∃ cls1 i1 cls2 i2,
      databaseConstruct dbClassInit n1 s1 = (cls1, Except.ok i1) ∧
      databaseConstruct cls1 n2 s2 = (cls2, Except.ok i2) ∧
      i2.id = i1.id ∧ i2.name = n2 ∧ i2.schemaSql = s2 ∧ i2.connId = i1.connId + 1 := by
  have e1 : databaseConstruct dbClassInit n1 s1
      = ({ instId := some 0, nextConn := 1 },
         Except.ok { id := 0, name := n1, connId := 0, connOpen := true,
                     schemaSql := s1, rows := [] }) := by
    simp [databaseConstruct, dbClassInit, h1]
  have e2 : databaseConstruct { instId := some 0, nextConn := 1 } n2 s2
      = ({ instId := some 0, nextConn := 2 },
         Except.ok { id := 0, name := n2, connId := 1, connOpen := true,
                     schemaSql := s2, rows := [] }) := by
    simp [databaseConstruct, h2]
  exact ⟨_, _, _, _, e1, e2, rfl, rfl, rfl, rfl⟩

theorem second_construction_same_object_new_args_witness :
    pyEndsWith "a.db" ".db" = true ∧ pyEndsWith "b.db" ".db" = true ∧
    (∃ cls1 i1 cls2 i2,
      databaseConstruct dbClassInit "a.db" "one" = (cls1, Except.ok i1) ∧
      databaseConstruct cls1 "b.db" "two" = (cls2, Except.ok i2) ∧
      i2.id = i1.id ∧ i2.name = "b.db" ∧ i2.schemaSql = "two" ∧
      i2.connId = i1.connId + 1) :=
  ⟨by decide, by decide,
    second_construction_same_object_new_args "a.db" "one" "b.db" "two"
      (by decide) (by decide)⟩

/-! ### Claim C4 -/

/-- Claim C4: if the snapshot of a cycle fails (any parse operation raises),
the cycle propagates that error and no record is inserted — the whole app
state, in particular the store's rows, is exactly what it was before the
cycle, because the insert is only reached after all six fields were
extracted. -/
theorem failing_cycle_leaves_store_unchanged (app : App) (now : UtcTime)
    (e : String) (h : app.strategy.data = Except.error e) :
    App.runCycle app now = (Except.error e, app) := by
  unfold App.runCycle
  simp [Fetch.data, h]

theorem failing_cycle_leaves_store_unchanged_witness :
    demoFailApp.strategy.data
      = Except.error "AttributeError: NoneType object has no attribute text" ∧
    App.runCycle demoFailApp demoTime
      = (Except.error "AttributeError: NoneType object has no attribute text",
         demoFailApp) :=
  ⟨rfl, failing_cycle_leaves_store_unchanged demoFailApp demoTime _ rfl⟩

/-! ### Claim C5 -/

/-- Claim C5 is refuted at status 304: `requests.Response.ok` is false only
for 4xx/5xx, so a 304 response — which is not 2xx — does not make the
strategy construction fail. -/
theorem status_304_not_2xx_but_construction_succeeds :
    (¬ (200 ≤ 304 ∧ 304 ≤ 299)) ∧
    USPS.get demo304Net "9400X" = Except.ok { status_code := 304, text := "not modified" } ∧
    uspsInit demo304Net demoParse "9400X"
      = Except.ok { tracking_number := "9400X",
                    response := { status_code := 304, text := "not modified" },
                    soup := demoSoup } := by
  refine ⟨by omega, rfl, rfl⟩

/-- Claim C5 (amended): for every response whose status lies in [400, 600) —
exactly the statuses `requests` treats as failures — constructing the
strategy fails with an error carrying the status code (e.g. 404 yields
"Error: 404"), App construction fails the same way, and hence no record is
persisted; non-2xx statuses below 400 do not raise. -/
theorem fetch_error_on_4xx_5xx (net : String → HttpResponse)
    (parseHtml : String → List SoupEl) (tn : String) (s : Nat)
    (hs : (net (BASE_URL ++ tn)).status_code = s)
    (h4 : 400 ≤ s) (h6 : s < 600) :
    USPS.get net tn = Except.error ("Error: " ++ toString s) ∧
    uspsInit net parseHtml tn = Except.error ("Error: " ++ toString s) ∧
    ∀ ds dbName sql, matchUs ds = true →
      appInit ds net parseHtml tn dbName sql
        = Except.error ("Error: " ++ toString s) := by
  have hok : responseOk s = false := by
    simp [responseOk]
    omega
  have hget : USPS.get net tn = Except.error ("Error: " ++ toString s) := by
    simp only [USPS.get]
    rw [hs, hok]
    simp
  refine ⟨hget, ?_, ?_⟩
  · simp [uspsInit, hget]
  · intro ds dbName sql hds
    simp [appInit, hds, uspsInit, hget]

theorem fetch_error_on_4xx_5xx_witness :
    ((demo404Net (BASE_URL ++ "9400X")).status_code = 404 ∧ 400 ≤ 404 ∧ 404 < 600) ∧
    (USPS.get demo404Net "9400X" = Except.error ("Error: " ++ toString 404) ∧
     uspsInit demo404Net demoParse "9400X" = Except.error ("Error: " ++ toString 404) ∧
     ∀ ds dbName sql, matchUs ds = true →
       appInit ds demo404Net demoParse "9400X" dbName sql
         = Except.error ("Error: " ++ toString 404)) :=
  ⟨⟨rfl, by omega, by omega⟩,
   fetch_error_on_4xx_5xx demo404Net demoParse "9400X" 404 rfl (by omega) (by omega)⟩

/-! ### Claim C6 -/

/-- Claim C6: over well-formed markup — the five marker elements present,
each with text that is non-blank after trimming — and a valid tracking
number (trimmed, non-empty), `data()` returns exactly the six keys
`tracking_number, content, status, detail, location, last_seen`, in order,
and every value is a trimmed, non-empty string. -/
theorem snapshot_six_keys_trimmed_nonempty (u : USPS)
    (t1 t2 t3 t4 t5 : String)
    (h1 : soupFind u.soup "p" "banner-content" = some t1)
    (h2 : soupFind u.soup "p" "tb-status" = some t2)
    (h3 : soupFind u.soup "p" "tb-status-detail" = some t3)
    (h4 : soupFind u.soup "p" "tb-location" = some t4)
    (h5 : soupFind u.soup "p" "tb-date" = some t5)
    (hn1 : pyStripStr t1 ≠ "") (hn2 : pyStripStr t2 ≠ "")
    (hn3 : pyStripStr t3 ≠ "") (hn4 : pyStripStr t4 ≠ "")
    (hn5 : pyStripStr t5 ≠ "")
    (htn : pyStripStr u.tracking_number = u.tracking_number)
    (htn' : u.tracking_number ≠ "") :
    ∃ d, u.data = Except.ok d ∧
      d.map Prod.fst
        = ["tracking_number", "content", "status", "detail", "location", "last_seen"] ∧
      ∀ p ∈ d, pyStripStr p.2 = p.2 ∧ p.2 ≠ "" := by
  have hdata : u.data = Except.ok [("tracking_number", u.tracking_number),
      ("content", pyStripStr t1), ("status", pyStripStr t2),
      ("detail", pyStripStr t3), ("location", pyStripStr t4),
      ("last_seen", pyNormalize t5)] := by
    unfold USPS.data USPS.parse_content USPS.parse_status USPS.parse_detail
      USPS.parse_location USPS.parse_last_seen
    rw [h1, h2, h3, h4, h5]
    rfl
  refine ⟨_, hdata, rfl, ?_⟩
  intro p hp
  simp at hp
  rcases hp with h | h | h | h | h | h <;> subst h
  · exact ⟨htn, htn'⟩
  · exact ⟨pyStripStr_idem t1, hn1⟩
  · exact ⟨pyStripStr_idem t2, hn2⟩
  · exact ⟨pyStripStr_idem t3, hn3⟩
  · exact ⟨pyStripStr_idem t4, hn4⟩
  · exact ⟨pyNormalize_trimmed t5, pyNormalize_ne_empty hn5⟩

theorem snapshot_six_keys_trimmed_nonempty_witness :
    (pyStripStr "9400X" = "9400X" ∧ ("9400X" : String) ≠ "") ∧
    (∃ d, demoUsps.data = Except.ok d ∧
      d.map Prod.fst
        = ["tracking_number", "content", "status", "detail", "location", "last_seen"] ∧
      ∀ p ∈ d, pyStripStr p.2 = p.2 ∧ p.2 ≠ "") :=
  ⟨⟨by decide, by decide⟩,
    snapshot_six_keys_trimmed_nonempty demoUsps _ _ _ _ _ rfl rfl rfl rfl rfl
      (by decide) (by decide) (by decide) (by decide) (by decide)
      (by decide) (by decide)⟩

/-! ### Claim C7 -/

/-- Claim C7: the whitespace normalization performed by `parse_last_seen`
(strip, split on whitespace runs, rejoin with single spaces) is idempotent
on every input string, and the two example inputs both normalize to
"Nov 3, 2023 10:15 AM". -/
theorem parse_last_seen_normalization_idempotent :
    (∀ s : String, pyNormalize (pyNormalize s) = pyNormalize s) ∧
    pyNormalize "Nov 3, 2023\n  10:15 AM" = "Nov 3, 2023 10:15 AM" ∧
    pyNormalize "Nov 3, 2023 10:15 AM" = "Nov 3, 2023 10:15 AM" :=
  ⟨pyNormalize_idem, rfl, rfl⟩

/-! ### Claim C8 -/

theorem lookup_append_single_ne {k k2 : String} (hne : k ≠ k2) (v : String) :
    ∀ (d : List (String × String)),
      List.lookup k (d ++ [(k2, v)]) = List.lookup k d := by
  intro d
  induction d with
  | nil =>
    have hb : (k == k2) = false := by simp [hne]
    simp [List.lookup, hb]
  | cons p d' ih =>
    obtain ⟨k1, v1⟩ := p
    rw [List.cons_append]
    cases hk1 : k == k1 with
    | true => simp [List.lookup, hk1]
    | false => simp [List.lookup, hk1, ih]

theorem lookup_append_of_not_mem_left {k : String} {e : List (String × String)} :
    ∀ {d : List (String × String)}, k ∉ d.map Prod.fst →
      List.lookup k (d ++ e) = List.lookup k e := by
  intro d
  induction d with
  | nil => intro _; rfl
  | cons p d' ih =>
    intro h
    obtain ⟨k1, v1⟩ := p
    rw [List.map_cons] at h
    have hne : k ≠ k1 := fun hx => h (by rw [hx]; simp)
    have h2 : k ∉ List.map Prod.fst d' := fun hx => h (List.mem_cons_of_mem _ hx)
    have hk1 : (k == k1) = false := by simp [hne]
    rw [List.cons_append]
    simp only [List.lookup, hk1]
    exact ih h2

/-- Claim C8: stamping a snapshot at save time (`data.update` followed by
the insert) adds exactly one field, `date`, whose value is the save-time
UTC timestamp formatted `YYYY-MM-DD HH:MM`, and leaves every carrier-derived
field's value unchanged. -/
theorem save_stamp_adds_exactly_date (d : List (String × String)) (now : UtcTime)
    (h : d.map Prod.fst
      = ["tracking_number", "content", "status", "detail", "location", "last_seen"]) :
    (dictUpdate d "date" (strftimeYmdHM now)).map Prod.fst
      = ["tracking_number", "content", "status", "detail", "location",
         "last_seen", "date"] ∧
    (∀ k, k ≠ "date" →
      List.lookup k (dictUpdate d "date" (strftimeYmdHM now)) = List.lookup k d) ∧
    List.lookup "date" (dictUpdate d "date" (strftimeYmdHM now))
      = some (strftimeYmdHM now) := by
  have hnotin : ((d.map Prod.fst).contains "date") = false := by
    rw [h]; decide
  have hupd : dictUpdate d "date" (strftimeYmdHM now)
      = d ++ [("date", strftimeYmdHM now)] := by
    unfold dictUpdate
    rw [hnotin]
    simp
  have hmem : "date" ∉ d.map Prod.fst := by
    rw [h]; decide
  refine ⟨?_, ?_, ?_⟩
  · rw [hupd]
    simp [h]
  · intro k hk
    rw [hupd]
    exact lookup_append_single_ne hk (strftimeYmdHM now) d
  · rw [hupd, lookup_append_of_not_mem_left hmem]
    simp [List.lookup]

theorem save_stamp_adds_exactly_date_witness :
    demoSnapshot.map Prod.fst
      = ["tracking_number", "content", "status", "detail", "location", "last_seen"] ∧
    ((dictUpdate demoSnapshot "date" (strftimeYmdHM demoTime)).map Prod.fst
      = ["tracking_number", "content", "status", "detail", "location",
         "last_seen", "date"] ∧
     (∀ k, k ≠ "date" →
       List.lookup k (dictUpdate demoSnapshot "date" (strftimeYmdHM demoTime))
         = List.lookup k demoSnapshot) ∧
     List.lookup "date" (dictUpdate demoSnapshot "date" (strftimeYmdHM demoTime))
       = some (strftimeYmdHM demoTime)) :=
  ⟨rfl, save_stamp_adds_exactly_date demoSnapshot demoTime rfl⟩

/-! ### Claim C9 -/

/-- Claim C9: the Fetch facade is pure delegation — for every wrapped
strategy, each of the eight facade operations returns exactly what the same
operation on the wrapped strategy returns (and hence fails exactly when the
strategy's operation fails); the facade adds no behaviour of its own. -/
theorem fetch_facade_pure_delegation (s : FetchStrategy) :
    (Fetch.mk s).tracking_number = s.tracking_number ∧
    (∀ tn, (Fetch.mk s).get tn = s.get tn) ∧
    (Fetch.mk s).parse_content = s.parse_content ∧
    (Fetch.mk s).parse_status = s.parse_status ∧
    (Fetch.mk s).parse_detail = s.parse_detail ∧
    (Fetch.mk s).parse_location = s.parse_location ∧
    (Fetch.mk s).parse_last_seen = s.parse_last_seen ∧
    (Fetch.mk s).data = s.data :=
  ⟨rfl, fun _ => rfl, rfl, rfl, rfl, rfl, rfl, rfl⟩

/-! ### Claim C10 -/

/-- Claim C10: each write operation of the store (`insert`, `update`,
`delete`) runs its statement inside the `with self.conn` transaction — over
an open connection, if statement execution raises, the committed rows are
unchanged (rolled back), and if it succeeds, the new rows are committed
before the operation returns. -/
theorem db_write_operations_transactional (db : DbInstance)
    (exec : List DbRow → Except String (List DbRow)) (h : db.connOpen = true) :
    (∀ e, exec db.rows = Except.error e →
      Database.insert db exec = (Except.error e, db) ∧
      Database.update db exec = (Except.error e, db) ∧
      Database.delete db exec = (Except.error e, db)) ∧
    (∀ rs, exec db.rows = Except.ok rs →
      Database.insert db exec = (Except.ok (), { db with rows := rs }) ∧
      Database.update db exec = (Except.ok (), { db with rows := rs }) ∧
      Database.delete db exec = (Except.ok (), { db with rows := rs })) := by
  constructor
  · intro e he
    refine ⟨?_, ?_, ?_⟩ <;>
      simp [Database.insert, Database.update, Database.delete, h, he]
  · intro rs hrs
    refine ⟨?_, ?_, ?_⟩ <;>
      simp [Database.insert, Database.update, Database.delete, h, hrs]

theorem db_write_operations_transactional_witness :
    demoOpenDb.connOpen = true ∧
    demoInsertExec demoOpenDb.rows = Except.ok [[("status", "Delivered")]] ∧
    demoFailExec demoOpenDb.rows = Except.error "constraint violation" ∧
    Database.insert demoOpenDb demoInsertExec
      = (Except.ok (), { demoOpenDb with rows := [[("status", "Delivered")]] }) ∧
    Database.delete demoOpenDb demoFailExec
      = (Except.error "constraint violation", demoOpenDb) :=
  ⟨rfl, rfl, rfl,
   ((db_write_operations_transactional demoOpenDb demoInsertExec rfl).2
     [[("status", "Delivered")]] rfl).1,
   ((db_write_operations_transactional demoOpenDb demoFailExec rfl).1
     "constraint violation" rfl).2.2⟩
